import Mathlib

/-!
Shallow embedding of the Lean CLI data-download core
(src/lean/components/cloud/data_downloader.py and
src/lean/models/products/equity_option.py).

Side effects are made explicit: the local filesystem is an association
list from paths to contents, the downloader's mutable fields form a
state record, and every observable interaction (progress line, warning,
confirmation prompt, remote fetch, remote listing, archive open) is
appended to an event trace.  Python exceptions become Except values
paired with the state at the point of the raise, so effects performed
before an exception persist, exactly as in the source.
-/

deriving instance DecidableEq for Except

/-- Observable interactions of the downloader, in order of occurrence. -/
inductive Event where
  | progress (index total : Nat) (path : String) (price : Nat)
  | warn (msg : String)
  | info (msg : String)
  | prompt
  | fetch (path : String)
  | listing (dir : String)
  | archive (path : String)
  deriving Repr, DecidableEq

/-- An error raised by the API client.  The flag records whether the
Python exception is a RequestFailedError (the only class caught by
DataDownloader._download_file); the message is str(error). -/
structure ApiError where
  isRequestFailed : Bool
  message : String
  deriving Repr, DecidableEq

/-- Whether the first character list is an initial segment of the
second. -/
def charListLead : List Char → List Char → Bool
  | [], _ => true
  | _ :: _, [] => false
  | p :: ps, c :: cs => (p == c) && charListLead ps cs

/-- Whether the first character list occurs inside the second. -/
def charListSub (pat : List Char) : List Char → Bool
  | [] => pat.isEmpty
  | c :: cs => charListLead pat (c :: cs) || charListSub pat cs

/-- The Python substring test (sub in msg), on character lists so that
it evaluates inside the kernel. -/
def containsSub (msg sub : String) : Bool :=
  charListSub sub.data msg.data

/-- The Python str.endswith test, on character lists. -/
def strEndsWith (s post : String) : Bool :=
  charListLead post.data.reverse s.data.reverse

/-- ASCII lowering of one character, as Python str.lower acts on the
ASCII market and ticker names the product uses. -/
def charToLower (c : Char) : Char :=
  if 65 ≤ c.toNat ∧ c.toNat ≤ 90 then Char.ofNat (c.toNat + 32) else c

/-- The Python str.lower call, on character lists. -/
def strToLower (s : String) : String :=
  ⟨s.data.map charToLower⟩

/-- Strict lexicographic order on character lists via code points. -/
def charListLt : List Char → List Char → Bool
  | [], [] => false
  | [], _ :: _ => true
  | _ :: _, [] => false
  | a :: as, b :: bs =>
      if a.toNat < b.toNat then true
      else if b.toNat < a.toNat then false
      else charListLt as bs

/-- Strict lexicographic order on strings. -/
def strLt (a b : String) : Bool :=
  charListLt a.data b.data

/-- The absorbable condition of _download_file: the exception is a
RequestFailedError and its text contains "File not found". -/
def ApiError.isFileNotFound (e : ApiError) : Bool :=
  e.isRequestFailed && containsSub e.message "File not found"

/-- One record of a parsed map file (spec 3: effectiveDate, oldTicker,
newTicker). -/
structure MapFileRecord where
  effectiveDate : Nat
  oldTicker : String
  newTicker : String
  deriving Repr, DecidableEq

/-- A parsed ticker-rename history (lean.models.map_file.MapFile). -/
structure MapFile where
  records : List MapFileRecord
  deriving Repr, DecidableEq

/-- One entry of the data_files argument of download_files: the remote
relative path together with its vendor price. -/
structure DataFile where
  file : String
  price : Nat
  deriving Repr, DecidableEq

/-- The mutable fields a DataDownloader instance carries between calls:
_force_overwrite (None / True / False) and _map_files_cache. -/
structure DownloaderState where
  force_overwrite : Option Bool
  map_files_cache : Option (List MapFile)
  deriving Repr, DecidableEq

/-- The state set up by DataDownloader.__init__: both fields are None. -/
def initDownloaderState : DownloaderState :=
  { force_overwrite := none, map_files_cache := none }

/-- The full mutable world threaded through the downloader: the local
filesystem (path to content), the instance state, and the event trace. -/
structure Sys where
  fs : List (String × String)
  st : DownloaderState
  events : List Event
  deriving Repr, DecidableEq

/-- The external collaborators, fixed for a scenario: the configured
data directory, the API fetch and listing endpoints, the answer the
user gives to the single confirmation prompt, the archive reader and
the map-file text parser. -/
structure World where
  dataDir : String
  fetchFile : String → Except ApiError String
  listFiles : String → Except ApiError (List String)
  userConfirm : Bool
  openZip : String → Except String (List String)
  parseMapFile : String → Except String MapFile

/-- Does a file exist at the given local path. -/
def fsExists (fs : List (String × String)) (path : String) : Bool :=
  fs.any (fun kv => kv.1 == path)

/-- Content of the local file at the given path, if any. -/
def fsGet (fs : List (String × String)) (path : String) : Option String :=
  (fs.find? (fun kv => kv.1 == path)).map (fun kv => kv.2)

/-- Write content at path, fully replacing prior content. -/
def fsWrite (fs : List (String × String)) (path content : String) :
    List (String × String) :=
  (path, content) :: fs.filter (fun kv => kv.1 != path)

/-- The warning logged when a local file already exists. -/
def existsWarning (path : String) : String :=
  path ++ " already exists, use --overwrite to overwrite it"

/-- The no-charge warning. -/
def noChargeWarning : String :=
  "You have not been billed for this file"

/-- The warning logged when the remote file is not found. -/
def notFoundWarning (relative_file : String) : String :=
  relative_file ++ " does not exist in the QuantConnect Data Library\n" ++
    "You have not been billed for this file"

/-- DataDownloader._should_overwrite.  Returns the decision and the
state after logging and the possible confirmation prompt. -/
def should_overwrite (w : World) (overwrite_flag : Bool) (path : String)
    (s : Sys) : Bool × Sys :=
  if overwrite_flag || (s.st.force_overwrite == some true) then
    (true, s)
  else
    let s1 : Sys := { s with events := s.events ++ [Event.warn (existsWarning path)] }
    let s2 : Sys :=
      if s1.st.force_overwrite == none then
        { s1 with
            st := { s1.st with force_overwrite := some w.userConfirm },
            events := s1.events ++ [Event.prompt] }
      else s1
    let ans : Bool := s2.st.force_overwrite.getD false
    if ans then (ans, s2)
    else (ans, { s2 with events := s2.events ++ [Event.warn noChargeWarning] })

/-- The fetch-and-write tail of _download_file: fetch the remote file,
absorb the "File not found" RequestFailedError with a warning, re-raise
anything else, and on success write the content at the local path. -/
def fetchAndWrite (w : World) (relative_file local_path : String) (s : Sys) :
    Except ApiError Unit × Sys :=
  let s1 : Sys := { s with events := s.events ++ [Event.fetch relative_file] }
  match w.fetchFile relative_file with
  | Except.error e =>
      if e.isFileNotFound then
        (Except.ok (),
         { s1 with events := s1.events ++ [Event.warn (notFoundWarning relative_file)] })
      else
        (Except.error e, s1)
  | Except.ok content =>
      (Except.ok (), { s1 with fs := fsWrite s1.fs local_path content })

/-- DataDownloader._download_file. -/
def download_file (w : World) (relative_file : String) (overwrite_flag : Bool)
    (s : Sys) : Except ApiError Unit × Sys :=
  let local_path := w.dataDir ++ "/" ++ relative_file
  if fsExists s.fs local_path then
    let r := should_overwrite w overwrite_flag local_path s
    if r.1 then fetchAndWrite w relative_file local_path r.2
    else (Except.ok (), r.2)
  else
    fetchAndWrite w relative_file local_path s

/-- The loop of DataDownloader.download_files: one progress line per
file, then _download_file; an uncaught exception aborts the rest. -/
def download_files_go (w : World) (overwrite_flag : Bool) (total : Nat) :
    Nat → List DataFile → Sys → Except ApiError Unit × Sys
  | _, [], s => (Except.ok (), s)
  | index, df :: rest, s =>
      let s1 : Sys :=
        { s with events := s.events ++ [Event.progress (index + 1) total df.file df.price] }
      match download_file w df.file overwrite_flag s1 with
      | (Except.error e, s2) => (Except.error e, s2)
      | (Except.ok _, s2) => download_files_go w overwrite_flag total (index + 1) rest s2

/-- DataDownloader.download_files, the batch-download entry point. -/
def download_files (w : World) (data_files : List DataFile)
    (overwrite_flag : Bool) (s : Sys) : Except ApiError Unit × Sys :=
  download_files_go w overwrite_flag data_files.length 0 data_files s

/-- Errors a download_map_files call can raise: an API error, the
IndexError of indexing an empty list with -1, an archive-open failure,
or a map-file parse failure. -/
inductive DlError where
  | api (e : ApiError)
  | indexOutOfRange
  | archive (msg : String)
  | parse (msg : String)
  deriving Repr, DecidableEq

/-- The remote directory listed for map files. -/
def mapFilesPath : String := "equity/usa/map_files"

/-- Open the local archive at path: fails when the file is absent,
otherwise defers to the archive reader on its content, yielding the
textual content of every entry in archive order. -/
def openZipAt (w : World) (fs : List (String × String)) (path : String) :
    Except String (List String) :=
  match fsGet fs path with
  | none => Except.error "no such file"
  | some content => w.openZip content

/-- Parse every archive entry in order; the first failure aborts. -/
def parseAll (w : World) : List String → Except String (List MapFile)
  | [] => Except.ok []
  | c :: rest =>
      match w.parseMapFile c with
      | Except.error msg => Except.error msg
      | Except.ok mf =>
          match parseAll w rest with
          | Except.error msg => Except.error msg
          | Except.ok mfs => Except.ok (mf :: mfs)

/-- DataDownloader.download_map_files. -/
def download_map_files (w : World) (s : Sys) :
    Except DlError (List MapFile) × Sys :=
  match s.st.map_files_cache with
  | some cache => (Except.ok cache, s)
  | none =>
    let s1 : Sys := { s with events := s.events ++ [Event.listing mapFilesPath] }
    match w.listFiles mapFilesPath with
    | Except.error e => (Except.error (DlError.api e), s1)
    | Except.ok entries =>
      match (entries.filter (fun m => strEndsWith m ".zip")).getLast? with
      | none => (Except.error DlError.indexOutOfRange, s1)
      | some map_files_zip =>
        let zip_path := w.dataDir ++ "/" ++ map_files_zip
        let dl : Except ApiError Unit × Sys :=
          if fsExists s1.fs zip_path then (Except.ok (), s1)
          else
            download_file w map_files_zip true
              { s1 with events := s1.events ++ [Event.info "Downloading the latest map files (free)"] }
        match dl.1 with
        | Except.error e => (Except.error (DlError.api e), dl.2)
        | Except.ok _ =>
          let s2 : Sys := { dl.2 with events := dl.2.events ++ [Event.archive zip_path] }
          match openZipAt w s2.fs zip_path with
          | Except.error msg => (Except.error (DlError.archive msg), s2)
          | Except.ok contents =>
            match parseAll w contents with
            | Except.error msg => (Except.error (DlError.parse msg), s2)
            | Except.ok mfs =>
              (Except.ok mfs,
               { s2 with st := { s2.st with map_files_cache := some mfs } })

/-- Count the confirmation prompts in a trace. -/
def countPrompt (evs : List Event) : Nat :=
  evs.countP (fun e => e matches Event.prompt)

/-- Count the remote fetch calls in a trace. -/
def countFetch (evs : List Event) : Nat :=
  evs.countP (fun e => e matches Event.fetch _)

/-- Count the remote listing calls in a trace. -/
def countListing (evs : List Event) : Nat :=
  evs.countP (fun e => e matches Event.listing _)

/-- Count the archive opens in a trace. -/
def countArchive (evs : List Event) : Nat :=
  evs.countP (fun e => e matches Event.archive _)

/-!
Embedding of EquityOptionProduct (src/lean/models/products/equity_option.py).
The collaborators it inherits from SecurityProduct (_list_files,
_get_data_files_in_range, _get_tradable_dates) are not part of the
shown source; they are modelled from the spec as an explicit
ResolverWorld, and every collaborator invocation is logged as an RCall.
-/

/-- The DataType enum (lean.models.products.security.DataType), limited
to the members EquityOptionProduct works with. -/
inductive DataType where
  | Trade
  | Quote
  | OpenInterest
  | Chains
  deriving Repr, DecidableEq

/-- data_type.name.lower() for the members above. -/
def dataTypeNameLower : DataType → String
  | DataType.Trade => "trade"
  | DataType.Quote => "quote"
  | DataType.OpenInterest => "openinterest"
  | DataType.Chains => "chains"

/-- The OptionStyle enum of equity_option.py. -/
inductive OptionStyle where
  | American
  | European
  deriving Repr, DecidableEq

/-- option_style.name.lower(). -/
def optionStyleNameLower : OptionStyle → String
  | OptionStyle.American => "american"
  | OptionStyle.European => "european"

/-- A collaborator invocation made while resolving a product. -/
inductive RCall where
  | rangeResolve (dir pat : String)
  | calendar
  | listing (dir : String)
  deriving Repr, DecidableEq

/-- The external collaborators of the resolver: the tradable-date
calendar, the date-range file resolver inherited from SecurityProduct,
the remote listing per path, and the regular-expression matcher. -/
structure ResolverWorld where
  tradableDates : Option String → Option String → List String
  dataFilesInRange : String → String → List String
  listingFor : String → List String
  matchesPat : String → String → Bool

/-- The fields of an EquityOptionProduct that its file resolution
reads. -/
structure EquityOptionProduct where
  data_type : DataType
  market : String
  ticker : String
  option_style : Option OptionStyle
  start_date : Option String
  end_date : Option String
  deriving Repr, DecidableEq

/-- The base_directory string of equity_option.py. -/
def baseDirectory (data_type : DataType) (market : String) : String :=
  "option/" ++ strToLower market ++ "/" ++
    (if data_type = DataType.Chains then "chains" else "minute")

/-- Modelled from the spec: SecurityProduct._list_files is not under
src/.  Per the PathPattern Matcher contract it lists the remote entries
under the given path and keeps exactly those matching the pattern,
discarding non-matches; the listing call is logged. -/
def list_files_model (w : ResolverWorld) (dir pat : String) :
    List String × List RCall :=
  ((w.listingFor dir).filter (fun entry => w.matchesPat pat entry),
   [RCall.listing dir])

/-- The validate_ticker closure of EquityOptionProduct.build: chains
data is stored by date instead of by ticker, so the probe is skipped
and reports true; otherwise the ticker-indexed path is listed and the
probe reports whether at least one entry matches.  Returns none when a
non-chains product has no option style (the attribute access on None
would raise). -/
def validate_ticker (w : ResolverWorld) (data_type : DataType)
    (option_style : Option OptionStyle) (base_directory t : String) :
    Option (Bool × List RCall) :=
  if data_type = DataType.Chains then
    some (true, [])
  else
    match option_style with
    | none => none
    | some st =>
        let r := list_files_model w (base_directory ++ "/" ++ strToLower t ++ "/")
          ("/\\d+_" ++ dataTypeNameLower data_type ++ "_" ++
            optionStyleNameLower st ++ "\\.zip")
        some (decide (0 < r.1.length), r.2)

/-- EquityOptionProduct._get_data_files.  Chains products emit one
path per tradable date; other products defer to the inherited
date-range resolver.  Returns none when a non-chains product has no
option style (the attribute access on None would raise). -/
def get_data_files (w : ResolverWorld) (p : EquityOptionProduct) :
    Option (List String × List RCall) :=
  let base := baseDirectory p.data_type p.market
  if p.data_type ≠ DataType.Chains then
    match p.option_style with
    | none => none
    | some st =>
        let dir := base ++ "/" ++ strToLower p.ticker ++ "/"
        let pat := "/(\\d+)_" ++ dataTypeNameLower p.data_type ++ "_" ++
          optionStyleNameLower st ++ "\\.zip"
        some (w.dataFilesInRange dir pat, [RCall.rangeResolve dir pat])
  else
    some ((w.tradableDates p.start_date p.end_date).map
            (fun d => base ++ "/" ++ d ++ "/" ++ strToLower p.ticker ++ ".csv"),
          [RCall.calendar])

/-- Modelled from the spec: the lexicographically-last zip-suffixed
entry of a listing, stated to compare with the selection the code
actually makes. -/
def lexLastZip (entries : List String) : Option String :=
  (entries.filter (fun m => strEndsWith m ".zip")).foldl
    (fun acc m =>
      match acc with
      | none => some m
      | some a => if strLt a m then some m else some a)
    none

/-!
Helper lemmas about the event traces and state components the
downloader functions touch.
-/

theorem countPrompt_append (a b : List Event) :
    countPrompt (a ++ b) = countPrompt a + countPrompt b := by
  simp [countPrompt, List.countP_append]

theorem countFetch_append (a b : List Event) :
    countFetch (a ++ b) = countFetch a + countFetch b := by
  simp [countFetch, List.countP_append]

theorem countListing_append (a b : List Event) :
    countListing (a ++ b) = countListing a + countListing b := by
  simp [countListing, List.countP_append]

theorem countArchive_append (a b : List Event) :
    countArchive (a ++ b) = countArchive a + countArchive b := by
  simp [countArchive, List.countP_append]

theorem should_overwrite_fs (w : World) (f : Bool) (p : String) (s : Sys) :
    ((should_overwrite w f p s).2).fs = s.fs := by
  cases f <;> rcases hfo : s.st.force_overwrite with _ | b <;>
    first
      | (cases b <;> cases hc : w.userConfirm <;> simp [should_overwrite, hfo, hc])
      | (cases hc : w.userConfirm <;> simp [should_overwrite, hfo, hc])

theorem should_overwrite_cache (w : World) (f : Bool) (p : String) (s : Sys) :
    ((should_overwrite w f p s).2).st.map_files_cache = s.st.map_files_cache := by
  cases f <;> rcases hfo : s.st.force_overwrite with _ | b <;>
    first
      | (cases b <;> cases hc : w.userConfirm <;> simp [should_overwrite, hfo, hc])
      | (cases hc : w.userConfirm <;> simp [should_overwrite, hfo, hc])

theorem should_overwrite_some (w : World) (f : Bool) (p : String) (s : Sys)
    (b : Bool) (h : s.st.force_overwrite = some b) :
    ((should_overwrite w f p s).2).st.force_overwrite = some b ∧
    countPrompt ((should_overwrite w f p s).2).events = countPrompt s.events := by
  cases f <;> cases b <;>
    simp [should_overwrite, h, countPrompt_append, countPrompt, List.countP_cons, List.countP_nil]

theorem should_overwrite_fetchCount (w : World) (f : Bool) (p : String) (s : Sys) :
    countFetch ((should_overwrite w f p s).2).events = countFetch s.events := by
  cases f <;> rcases hfo : s.st.force_overwrite with _ | b <;>
    first
      | (cases b <;> cases hc : w.userConfirm <;>
          simp [should_overwrite, hfo, hc, countFetch_append, countFetch, List.countP_cons, List.countP_nil])
      | (cases hc : w.userConfirm <;>
          simp [should_overwrite, hfo, hc, countFetch_append, countFetch, List.countP_cons, List.countP_nil])

theorem should_overwrite_fst_st (w : World) (f : Bool) (p : String) (s s' : Sys)
    (h : s.st = s'.st) :
    (should_overwrite w f p s).1 = (should_overwrite w f p s').1 := by
  cases f <;> rcases hfo : s.st.force_overwrite with _ | b <;>
    first
      | (cases b <;> cases hc : w.userConfirm <;>
          simp [should_overwrite, hfo, h ▸ hfo, hc])
      | (cases hc : w.userConfirm <;>
          simp [should_overwrite, hfo, h ▸ hfo, hc])

theorem fetchAndWrite_st (w : World) (rf lp : String) (s : Sys) :
    ((fetchAndWrite w rf lp s).2).st = s.st := by
  unfold fetchAndWrite
  rcases w.fetchFile rf with e | c
  · by_cases h : e.isFileNotFound = true <;> simp [h]
  · simp

theorem fetchAndWrite_trace (w : World) (rf lp : String) (s : Sys) :
    ∃ t : List Event,
      ((fetchAndWrite w rf lp s).2).events = s.events ++ t ∧
      countPrompt t = 0 ∧ countListing t = 0 ∧ countArchive t = 0 ∧
      countFetch t = 1 := by
  unfold fetchAndWrite
  rcases w.fetchFile rf with e | c
  · by_cases h : e.isFileNotFound = true
    · exact ⟨[Event.fetch rf, Event.warn (notFoundWarning rf)], by
        simp [h, countPrompt, countListing, countArchive, countFetch, List.countP_cons, List.countP_nil]⟩
    · exact ⟨[Event.fetch rf], by
        simp [h, countPrompt, countListing, countArchive, countFetch, List.countP_cons, List.countP_nil]⟩
  · exact ⟨[Event.fetch rf], by
      simp [countPrompt, countListing, countArchive, countFetch, List.countP_cons, List.countP_nil]⟩

theorem download_file_cache (w : World) (rf : String) (f : Bool) (s : Sys) :
    ((download_file w rf f s).2).st.map_files_cache = s.st.map_files_cache := by
  unfold download_file
  by_cases h : fsExists s.fs (w.dataDir ++ "/" ++ rf) = true
  · simp only [h, if_true]
    by_cases h2 : (should_overwrite w f (w.dataDir ++ "/" ++ rf) s).1 = true
    · simp only [h2, if_true]
      rw [show ((fetchAndWrite w rf (w.dataDir ++ "/" ++ rf)
            (should_overwrite w f (w.dataDir ++ "/" ++ rf) s).2).2).st.map_files_cache =
          ((should_overwrite w f (w.dataDir ++ "/" ++ rf) s).2).st.map_files_cache from
          congrArg DownloaderState.map_files_cache (fetchAndWrite_st w rf _ _)]
      exact should_overwrite_cache w f _ s
    · simp only [Bool.not_eq_true] at h2
      simp only [h2, if_false]
      exact should_overwrite_cache w f _ s
  · simp only [Bool.not_eq_true] at h
    simp only [h, if_false]
    exact congrArg DownloaderState.map_files_cache (fetchAndWrite_st w rf _ _)


theorem should_overwrite_listingCount (w : World) (f : Bool) (p : String) (s : Sys) :
    countListing ((should_overwrite w f p s).2).events = countListing s.events := by
  cases f <;> rcases hfo : s.st.force_overwrite with _ | b <;>
    first
      | (cases b <;> cases hc : w.userConfirm <;>
          simp [should_overwrite, hfo, hc, countListing_append, countListing,
            List.countP_cons, List.countP_nil])
      | (cases hc : w.userConfirm <;>
          simp [should_overwrite, hfo, hc, countListing_append, countListing,
            List.countP_cons, List.countP_nil])

theorem should_overwrite_archiveCount (w : World) (f : Bool) (p : String) (s : Sys) :
    countArchive ((should_overwrite w f p s).2).events = countArchive s.events := by
  cases f <;> rcases hfo : s.st.force_overwrite with _ | b <;>
    first
      | (cases b <;> cases hc : w.userConfirm <;>
          simp [should_overwrite, hfo, hc, countArchive_append, countArchive,
            List.countP_cons, List.countP_nil])
      | (cases hc : w.userConfirm <;>
          simp [should_overwrite, hfo, hc, countArchive_append, countArchive,
            List.countP_cons, List.countP_nil])

theorem fetchAndWrite_counts (w : World) (rf lp : String) (s : Sys) :
    countListing ((fetchAndWrite w rf lp s).2).events = countListing s.events ∧
    countArchive ((fetchAndWrite w rf lp s).2).events = countArchive s.events ∧
    countFetch ((fetchAndWrite w rf lp s).2).events = countFetch s.events + 1 ∧
    countPrompt ((fetchAndWrite w rf lp s).2).events = countPrompt s.events := by
  obtain ⟨t, ht, htp, htl, hta, htf⟩ := fetchAndWrite_trace w rf lp s
  refine ⟨?_, ?_, ?_, ?_⟩
  · rw [ht, countListing_append, htl, Nat.add_zero]
  · rw [ht, countArchive_append, hta, Nat.add_zero]
  · rw [ht, countFetch_append, htf]
  · rw [ht, countPrompt_append, htp, Nat.add_zero]

theorem download_file_force_some (w : World) (rf : String) (f : Bool) (s : Sys)
    (b : Bool) (h : s.st.force_overwrite = some b) :
    ((download_file w rf f s).2).st.force_overwrite = some b ∧
    countPrompt ((download_file w rf f s).2).events = countPrompt s.events := by
  unfold download_file
  by_cases hx : fsExists s.fs (w.dataDir ++ "/" ++ rf) = true
  · simp only [hx, if_true]
    by_cases h2 : (should_overwrite w f (w.dataDir ++ "/" ++ rf) s).1 = true
    · simp only [h2, if_true]
      obtain ⟨hf, hp⟩ := should_overwrite_some w f (w.dataDir ++ "/" ++ rf) s b h
      constructor
      · exact (congrArg DownloaderState.force_overwrite
          (fetchAndWrite_st w rf (w.dataDir ++ "/" ++ rf) _)).trans hf
      · exact ((fetchAndWrite_counts w rf (w.dataDir ++ "/" ++ rf) _).2.2.2).trans hp
    · simp only [Bool.not_eq_true] at h2
      simp only [h2]
      exact should_overwrite_some w f (w.dataDir ++ "/" ++ rf) s b h
  · simp only [Bool.not_eq_true] at hx
    simp only [hx]
    constructor
    · exact (congrArg DownloaderState.force_overwrite
        (fetchAndWrite_st w rf (w.dataDir ++ "/" ++ rf) s)).trans h
    · exact (fetchAndWrite_counts w rf (w.dataDir ++ "/" ++ rf) s).2.2.2

theorem download_file_counts (w : World) (rf : String) (f : Bool) (s : Sys) :
    countListing ((download_file w rf f s).2).events = countListing s.events ∧
    countArchive ((download_file w rf f s).2).events = countArchive s.events ∧
    countFetch ((download_file w rf f s).2).events ≤ countFetch s.events + 1 := by
  unfold download_file
  by_cases hx : fsExists s.fs (w.dataDir ++ "/" ++ rf) = true
  · simp only [hx, if_true]
    by_cases h2 : (should_overwrite w f (w.dataDir ++ "/" ++ rf) s).1 = true
    · simp only [h2, if_true]
      obtain ⟨hl, ha, hf, _⟩ := fetchAndWrite_counts w rf (w.dataDir ++ "/" ++ rf)
        (should_overwrite w f (w.dataDir ++ "/" ++ rf) s).2
      refine ⟨?_, ?_, ?_⟩
      · exact hl.trans (should_overwrite_listingCount w f _ s)
      · exact ha.trans (should_overwrite_archiveCount w f _ s)
      · have h3 : countFetch ((fetchAndWrite w rf (w.dataDir ++ "/" ++ rf)
            (should_overwrite w f (w.dataDir ++ "/" ++ rf) s).2).2).events =
            countFetch s.events + 1 := by
          rw [hf, should_overwrite_fetchCount w f _ s]
        exact Nat.le_of_eq h3
    · simp only [Bool.not_eq_true] at h2
      simp only [h2]
      refine ⟨should_overwrite_listingCount w f _ s,
        should_overwrite_archiveCount w f _ s, ?_⟩
      exact Nat.le_trans
        (Nat.le_of_eq (should_overwrite_fetchCount w f (w.dataDir ++ "/" ++ rf) s))
        (Nat.le_succ _)
  · simp only [Bool.not_eq_true] at hx
    simp only [hx]
    obtain ⟨hl, ha, hf, _⟩ := fetchAndWrite_counts w rf (w.dataDir ++ "/" ++ rf) s
    exact ⟨hl, ha, Nat.le_of_eq hf⟩

theorem download_files_go_force_some (w : World) (f : Bool) (total : Nat)
    (b : Bool) :
    ∀ (files : List DataFile) (index : Nat) (s : Sys),
      s.st.force_overwrite = some b →
      ((download_files_go w f total index files s).2).st.force_overwrite = some b ∧
      countPrompt ((download_files_go w f total index files s).2).events =
        countPrompt s.events := by
  intro files
  induction files with
  | nil => intro index s h; exact ⟨h, rfl⟩
  | cons df rest ih =>
      intro index s h
      rcases hdl : download_file w df.file f
          { s with events := s.events ++
            [Event.progress (index + 1) total df.file df.price] } with ⟨r, s2⟩
      have h1 : (({ s with events := s.events ++
          [Event.progress (index + 1) total df.file df.price] } : Sys)).st.force_overwrite
          = some b := h
      obtain ⟨hf, hp⟩ := download_file_force_some w df.file f
        { s with events := s.events ++
          [Event.progress (index + 1) total df.file df.price] } b h1
      rw [hdl] at hf hp
      have hp2 : countPrompt s2.events = countPrompt s.events := by
        rw [hp, countPrompt_append]
        simp [countPrompt, List.countP_cons, List.countP_nil]
      cases r with
      | error e =>
          simp only [download_files_go, hdl]
          exact ⟨hf, hp2⟩
      | ok u =>
          simp only [download_files_go, hdl]
          obtain ⟨hf3, hp3⟩ := ih (index + 1) s2 hf
          exact ⟨hf3, hp3.trans hp2⟩

/-!
Claim theorems.  Concrete worlds used by witnesses follow first.
-/

/-- A world whose user answers yes to the confirmation prompt and whose
fetches succeed. -/
def wAsk : World where
  dataDir := "data"
  fetchFile := fun _ => Except.ok "new content"
  listFiles := fun _ => Except.ok []
  userConfirm := true
  openZip := fun _ => Except.error "bad zip"
  parseMapFile := fun _ => Except.error "bad map file"

/-- A world whose user answers no to the confirmation prompt. -/
def wDecline : World where
  dataDir := "data"
  fetchFile := fun _ => Except.ok "new content"
  listFiles := fun _ => Except.ok []
  userConfirm := false
  openZip := fun _ => Except.error "bad zip"
  parseMapFile := fun _ => Except.error "bad map file"

/-- A freshly constructed downloader with one conflicting local file. -/
def sConflict : Sys := ⟨[("data/a.csv", "old")], initDownloaderState, []⟩

/-- A downloader whose shared decision is already Allow, with one
conflicting local file. -/
def sAllow : Sys := ⟨[("data/a.csv", "old")], ⟨some true, none⟩, []⟩

/-- Claim C3: _should_overwrite satisfies the spec state machine.  If
the per-call flag is true or the shared decision is Allow it permits
with no interaction and no state change; if the shared decision is Deny
it denies with no prompt, logging the already-exists and no-charge
warnings; otherwise it prompts exactly once, stores the answer as the
shared decision, and returns that answer for the current file. -/
theorem should_overwrite_state_machine (w : World) (flag : Bool) (path : String)
    (s : Sys) :
    ((flag = true ∨ s.st.force_overwrite = some true) →
      should_overwrite w flag path s = (true, s)) ∧
    ((flag = false ∧ s.st.force_overwrite = some false) →
      should_overwrite w flag path s =
        (false, { s with events := s.events ++
          [Event.warn (existsWarning path), Event.warn noChargeWarning] })) ∧
    ((flag = false ∧ s.st.force_overwrite = none) →
      (should_overwrite w flag path s).1 = w.userConfirm ∧
      ((should_overwrite w flag path s).2).st.force_overwrite = some w.userConfirm ∧
      countPrompt ((should_overwrite w flag path s).2).events =
        countPrompt s.events + 1) := by
  refine ⟨?_, ?_, ?_⟩
  · rintro (h | h)
    · simp [should_overwrite, h]
    · simp [should_overwrite, h]
  · rintro ⟨h1, h2⟩
    simp [should_overwrite, h1, h2]
  · rintro ⟨h1, h2⟩
    cases hc : w.userConfirm <;>
      simp [should_overwrite, h1, h2, hc, countPrompt_append, countPrompt,
        List.countP_cons, List.countP_nil]

/-- Witness for C3: with an Undecided decision, no flag, and a user who
answers yes, the prompt fires and the answer is stored and applied. -/
theorem should_overwrite_state_machine_witness :
    (should_overwrite wAsk false "data/a.csv" sConflict).1 = true ∧
    ((should_overwrite wAsk false "data/a.csv" sConflict).2).st.force_overwrite =
      some true := by
  have h := (should_overwrite_state_machine wAsk false "data/a.csv" sConflict).2.2
    ⟨rfl, rfl⟩
  exact ⟨h.1, h.2.1⟩

/-- Claim C1, counterexample: the overwrite decision does not restart
Undecided on a second call to download_files.  After a first run whose
conflict the user answered yes to, the decision entering the second run
is Allow (not Undecided), and the second run's conflict on the same
file produces no further prompt: the whole two-run trace holds exactly
one prompt. -/
theorem overwrite_decision_persists_across_runs :
    ((download_files wAsk [⟨"a.csv", 0⟩] false sConflict).2).st.force_overwrite =
      some true ∧
    countPrompt ((download_files wAsk [⟨"a.csv", 0⟩] false
      ((download_files wAsk [⟨"a.csv", 0⟩] false sConflict).2)).2).events = 1 := by
  decide

/-- Claim C1 (amended): the overwrite decision is scoped to the
DataDownloader instance, not to one download_files call.  It starts
Undecided at construction, and once Allow or Deny it is never changed
and never prompted for again by any later download_files call on the
same instance. -/
theorem overwrite_decision_instance_scoped :
    initDownloaderState.force_overwrite = none ∧
    ∀ (w : World) (files : List DataFile) (flag : Bool) (s : Sys) (b : Bool),
      s.st.force_overwrite = some b →
      ((download_files w files flag s).2).st.force_overwrite = some b ∧
      countPrompt ((download_files w files flag s).2).events =
        countPrompt s.events := by
  refine ⟨rfl, ?_⟩
  intro w files flag s b h
  exact download_files_go_force_some w flag files.length b files 0 s h

/-- Witness for the amended C1: a run whose decision is already Allow
keeps it Allow and asks nothing, even on a conflicting file. -/
theorem overwrite_decision_instance_scoped_witness :
    ((download_files wAsk [⟨"a.csv", 0⟩] false sAllow).2).st.force_overwrite =
      some true ∧
    countPrompt ((download_files wAsk [⟨"a.csv", 0⟩] false sAllow).2).events =
      countPrompt sAllow.events :=
  overwrite_decision_instance_scoped.2 wAsk [⟨"a.csv", 0⟩] false sAllow true rfl

/-- A world whose fetches all fail with the not-found condition. -/
def wNotFound : World where
  dataDir := "data"
  fetchFile := fun _ => Except.error ⟨true, "File not found"⟩
  listFiles := fun _ => Except.ok []
  userConfirm := true
  openZip := fun _ => Except.error "bad zip"
  parseMapFile := fun _ => Except.error "bad map file"

/-- A downloader state with an empty local mirror. -/
def sClean : Sys := ⟨[], initDownloaderState, []⟩

/-- Claim C2: inside any batch, a fetch failure at the current file is
absorbed exactly when it is the not-found condition: then the warning
is emitted, the filesystem is untouched for that file, and the loop
continues with the next file; any other fetch failure is returned
immediately, so no event of any later file is ever produced. -/
theorem fetch_failure_handling (w : World) (flag : Bool) (df : DataFile)
    (rest : List DataFile) (total index : Nat) (s : Sys) (e : ApiError)
    (hfetch : w.fetchFile df.file = Except.error e)
    (hnolocal : fsExists s.fs (w.dataDir ++ "/" ++ df.file) = false) :
    (e.isFileNotFound = true →
      download_files_go w flag total index (df :: rest) s =
        download_files_go w flag total (index + 1) rest
          { s with events := s.events ++
            [Event.progress (index + 1) total df.file df.price,
             Event.fetch df.file,
             Event.warn (notFoundWarning df.file)] }) ∧
    (e.isFileNotFound = false →
      download_files_go w flag total index (df :: rest) s =
        (Except.error e,
         { s with events := s.events ++
           [Event.progress (index + 1) total df.file df.price,
            Event.fetch df.file] })) := by
  constructor
  · intro hnf
    simp [download_files_go, download_file, fetchAndWrite, hfetch, hnolocal, hnf,
      List.append_assoc]
  · intro hnf
    simp [download_files_go, download_file, fetchAndWrite, hfetch, hnolocal, hnf,
      List.append_assoc]

/-- Witness for C2: a one-file batch whose fetch raises not-found skips
the file with the warning and continues into the (empty) rest. -/
theorem fetch_failure_handling_witness :
    download_files_go wNotFound false 1 0 [⟨"x.csv", 7⟩] sClean =
      download_files_go wNotFound false 1 1 []
        { sClean with events := sClean.events ++
          [Event.progress 1 1 "x.csv" 7,
           Event.fetch "x.csv",
           Event.warn (notFoundWarning "x.csv")] } :=
  (fetch_failure_handling wNotFound false ⟨"x.csv", 7⟩ [] 1 0 sClean
    ⟨true, "File not found"⟩ rfl (by decide)).1 (by decide)

/-- Claim C4: when the local file exists and the overwrite policy
denies, the file is skipped: the loop continues with the remaining
files from the policy-updated state, which has the same filesystem as
before (in particular the existing file's content is untouched) and no
new fetch event. -/
theorem deny_skips_file (w : World) (flag : Bool) (df : DataFile)
    (rest : List DataFile) (total index : Nat) (s : Sys)
    (hexists : fsExists s.fs (w.dataDir ++ "/" ++ df.file) = true)
    (hdeny : (should_overwrite w flag (w.dataDir ++ "/" ++ df.file) s).1 = false) :
    download_files_go w flag total index (df :: rest) s =
      download_files_go w flag total (index + 1) rest
        ((should_overwrite w flag (w.dataDir ++ "/" ++ df.file)
          { s with events := s.events ++
            [Event.progress (index + 1) total df.file df.price] }).2) ∧
    ((should_overwrite w flag (w.dataDir ++ "/" ++ df.file)
      { s with events := s.events ++
        [Event.progress (index + 1) total df.file df.price] }).2).fs = s.fs ∧
    countFetch ((should_overwrite w flag (w.dataDir ++ "/" ++ df.file)
      { s with events := s.events ++
        [Event.progress (index + 1) total df.file df.price] }).2).events =
      countFetch s.events ∧
    fsGet ((should_overwrite w flag (w.dataDir ++ "/" ++ df.file)
      { s with events := s.events ++
        [Event.progress (index + 1) total df.file df.price] }).2).fs
      (w.dataDir ++ "/" ++ df.file) = fsGet s.fs (w.dataDir ++ "/" ++ df.file) := by
  have hdeny2 : (should_overwrite w flag (w.dataDir ++ "/" ++ df.file)
      { s with events := s.events ++
        [Event.progress (index + 1) total df.file df.price] }).1 = false :=
    (should_overwrite_fst_st w flag (w.dataDir ++ "/" ++ df.file)
      { s with events := s.events ++
        [Event.progress (index + 1) total df.file df.price] } s rfl).trans hdeny
  refine ⟨?_, should_overwrite_fs w flag _ _, ?_, ?_⟩
  · simp [download_files_go, download_file, hexists, hdeny2]
  · rw [should_overwrite_fetchCount w flag _ _]
    show countFetch (s.events ++ [Event.progress (index + 1) total df.file df.price]) =
      countFetch s.events
    rw [countFetch_append]
    simp [countFetch, List.countP_cons, List.countP_nil]
  · exact congrArg (fun fs => fsGet fs (w.dataDir ++ "/" ++ df.file))
      (should_overwrite_fs w flag _ _)

/-- Witness for C4: a conflicting file with a declining user is skipped
and the loop continues into the (empty) rest of the batch. -/
theorem deny_skips_file_witness :
    download_files_go wDecline false 1 0 [⟨"a.csv", 3⟩] sConflict =
      download_files_go wDecline false 1 1 []
        ((should_overwrite wDecline false (wDecline.dataDir ++ "/" ++ "a.csv")
          { sConflict with events := sConflict.events ++
            [Event.progress 1 1 "a.csv" 3] }).2) :=
  (deny_skips_file wDecline false ⟨"a.csv", 3⟩ [] 1 0 sConflict
    (by decide) (by decide)).1

/-- A world whose map-file listing call fails. -/
def wListFail : World where
  dataDir := "data"
  fetchFile := fun _ => Except.ok "bytes"
  listFiles := fun _ => Except.error ⟨false, "boom"⟩
  userConfirm := true
  openZip := fun _ => Except.error "bad zip"
  parseMapFile := fun _ => Except.error "bad map file"

/-- A world whose map-file listing holds no zip-suffixed entry. -/
def wNoZip : World where
  dataDir := "data"
  fetchFile := fun _ => Except.ok "bytes"
  listFiles := fun _ => Except.ok ["readme.txt"]
  userConfirm := true
  openZip := fun _ => Except.error "bad zip"
  parseMapFile := fun _ => Except.error "bad map file"

/-- Claim C7: a failing download_map_files call leaves the cache
exactly as it was; in particular an initially empty cache stays empty,
so no partial list is ever stored. -/
theorem map_files_error_no_partial_cache (w : World) (s : Sys) (e : DlError)
    (h : (download_map_files w s).1 = Except.error e) :
    ((download_map_files w s).2).st.map_files_cache = s.st.map_files_cache := by
  rcases hc : s.st.map_files_cache with _ | cache
  · simp only [download_map_files, hc] at h ⊢
    rcases hl : w.listFiles mapFilesPath with e2 | entries <;>
      simp only [hl] at h ⊢
    · exact hc
    rcases hz : (entries.filter (fun m => strEndsWith m ".zip")).getLast? with _ | z <;>
      simp only [hz] at h ⊢
    · exact hc
    by_cases hex : fsExists s.fs (w.dataDir ++ "/" ++ z) = true
    · simp only [hex, if_true] at h ⊢
      rcases ho : openZipAt w s.fs (w.dataDir ++ "/" ++ z) with msg | contents <;>
        simp only [ho] at h ⊢
      · exact hc
      rcases hp : parseAll w contents with msg | mfs <;> simp only [hp] at h ⊢
      · exact hc
      · simp at h
    · simp only [Bool.not_eq_true] at hex
      simp only [hex, Bool.false_eq_true, if_false] at h ⊢
      rcases hdf : download_file w z true
          { s with events := (s.events ++ [Event.listing mapFilesPath]) ++
            [Event.info "Downloading the latest map files (free)"] } with ⟨r, sD⟩
      simp only [hdf] at h ⊢
      have hDcache : sD.st.map_files_cache = none := by
        have := download_file_cache w z true
          { s with events := (s.events ++ [Event.listing mapFilesPath]) ++
            [Event.info "Downloading the latest map files (free)"] }
        rw [hdf] at this
        exact this.trans hc
      cases r with
      | error e2 => simpa using hDcache
      | ok u =>
          simp only at h ⊢
          rcases ho : openZipAt w sD.fs (w.dataDir ++ "/" ++ z) with msg | contents <;>
            simp only [ho] at h ⊢
          · simpa using hDcache
          rcases hp : parseAll w contents with msg | mfs <;> simp only [hp] at h ⊢
          · simpa using hDcache
          · simp at h
  · simp [download_map_files, hc] at h

/-- Witness for C7: a failing listing call propagates its error and
leaves the cache unpopulated. -/
theorem map_files_error_no_partial_cache_witness :
    (download_map_files wListFail sClean).1 =
      Except.error (DlError.api ⟨false, "boom"⟩) ∧
    ((download_map_files wListFail sClean).2).st.map_files_cache =
      sClean.st.map_files_cache :=
  ⟨by decide, map_files_error_no_partial_cache wListFail sClean
    (DlError.api ⟨false, "boom"⟩) (by decide)⟩

/-- Claim C10: with an empty cache, when the listing succeeds but holds
no zip-suffixed entry (an empty listing included), download_map_files
raises the out-of-range error of indexing the empty filtered list with
-1 instead of returning an empty list, and the cache stays empty. -/
theorem no_zip_entries_fails (w : World) (s : Sys) (entries : List String)
    (hcache : s.st.map_files_cache = none)
    (hlist : w.listFiles mapFilesPath = Except.ok entries)
    (hnozip : entries.filter (fun m => strEndsWith m ".zip") = []) :
    download_map_files w s =
      (Except.error DlError.indexOutOfRange,
       { s with events := s.events ++ [Event.listing mapFilesPath] }) := by
  simp [download_map_files, hcache, hlist, hnozip]

/-- Witness for C10: a listing with only non-zip entries makes the call
fail with the out-of-range error. -/
theorem no_zip_entries_fails_witness :
    download_map_files wNoZip sClean =
      (Except.error DlError.indexOutOfRange,
       { sClean with events := sClean.events ++ [Event.listing mapFilesPath] }) :=
  no_zip_entries_fails wNoZip sClean ["readme.txt"] rfl rfl (by decide)

theorem countListing_listing (d : String) : countListing [Event.listing d] = 1 := rfl

theorem countListing_archive (p : String) : countListing [Event.archive p] = 0 := rfl

theorem countListing_info (m : String) : countListing [Event.info m] = 0 := rfl

theorem countFetch_listing (d : String) : countFetch [Event.listing d] = 0 := rfl

theorem countFetch_archive (p : String) : countFetch [Event.archive p] = 0 := rfl

theorem countFetch_info (m : String) : countFetch [Event.info m] = 0 := rfl

theorem countArchive_listing (d : String) : countArchive [Event.listing d] = 0 := rfl

theorem countArchive_archive (p : String) : countArchive [Event.archive p] = 1 := rfl

theorem countArchive_info (m : String) : countArchive [Event.info m] = 0 := rfl

/-- Claim C5: download_map_files is memoized.  When a call on an empty
cache succeeds, it performs exactly one listing call, at most one fetch
call and exactly one archive open, and a second call returns the very
same list and state unchanged - hence with no further listing, fetch or
archive events. -/
theorem download_map_files_memoized (w : World) (s : Sys) (l1 : List MapFile)
    (s1 : Sys)
    (hcache : s.st.map_files_cache = none)
    (h1 : download_map_files w s = (Except.ok l1, s1)) :
    download_map_files w s1 = (Except.ok l1, s1) ∧
    countListing s1.events = countListing s.events + 1 ∧
    countFetch s1.events ≤ countFetch s.events + 1 ∧
    countArchive s1.events = countArchive s.events + 1 := by
  simp only [download_map_files, hcache] at h1
  rcases hl : w.listFiles mapFilesPath with e2 | entries <;> simp only [hl] at h1
  · simp at h1
  rcases hz : (entries.filter (fun m => strEndsWith m ".zip")).getLast? with _ | z <;>
    simp only [hz] at h1
  · simp at h1
  by_cases hex : fsExists s.fs (w.dataDir ++ "/" ++ z) = true
  · simp only [hex, if_true] at h1
    rcases ho : openZipAt w s.fs (w.dataDir ++ "/" ++ z) with msg | contents <;>
      simp only [ho] at h1
    · simp at h1
    rcases hp : parseAll w contents with msg | mfs <;> simp only [hp] at h1
    · simp at h1
    rw [Prod.mk.injEq, Except.ok.injEq] at h1
    obtain ⟨hm, hs⟩ := h1
    subst hm
    subst hs
    refine ⟨rfl, ?_, ?_, ?_⟩
    · simp only [countListing_append, countListing_listing, countListing_archive] <;>
        omega
    · simp only [countFetch_append, countFetch_listing, countFetch_archive] <;> omega
    · simp only [countArchive_append, countArchive_listing, countArchive_archive] <;>
        omega
  · simp only [Bool.not_eq_true] at hex
    simp only [hex, Bool.false_eq_true, if_false] at h1
    rcases hdf : download_file w z true
        { s with events := (s.events ++ [Event.listing mapFilesPath]) ++
          [Event.info "Downloading the latest map files (free)"] } with ⟨r, sD⟩
    simp only [hdf] at h1
    have hcounts := download_file_counts w z true
      { s with events := (s.events ++ [Event.listing mapFilesPath]) ++
        [Event.info "Downloading the latest map files (free)"] }
    rw [hdf] at hcounts
    obtain ⟨hDl, hDa, hDf⟩ := hcounts
    simp only [countListing_append, countListing_listing, countListing_info] at hDl
    simp only [countArchive_append, countArchive_listing, countArchive_info] at hDa
    simp only [countFetch_append, countFetch_listing, countFetch_info] at hDf
    cases r with
    | error e2 => simp at h1
    | ok u =>
        simp only at h1
        rcases ho : openZipAt w sD.fs (w.dataDir ++ "/" ++ z) with msg | contents <;>
          simp only [ho] at h1
        · simp at h1
        rcases hp : parseAll w contents with msg | mfs <;> simp only [hp] at h1
        · simp at h1
        rw [Prod.mk.injEq, Except.ok.injEq] at h1
        obtain ⟨hm, hs⟩ := h1
        subst hm
        subst hs
        refine ⟨rfl, ?_, ?_, ?_⟩
        · simp only [countListing_append, countListing_archive] <;> omega
        · simp only [countFetch_append, countFetch_archive] <;> omega
        · simp only [countArchive_append, countArchive_archive] <;> omega

/-- A world with one map-file bundle that downloads and parses
successfully. -/
def wMap : World where
  dataDir := "data"
  fetchFile := fun _ => Except.ok "ZIPBYTES"
  listFiles := fun _ => Except.ok ["2024-01-01_map_files.zip"]
  userConfirm := true
  openZip := fun _ => Except.ok ["row"]
  parseMapFile := fun _ => Except.ok ⟨[⟨20240101, "aol", "twx"⟩]⟩

/-- The state after one successful map-file download from a clean
start. -/
def sMapDone : Sys := (download_map_files wMap sClean).2

/-- Witness for C5: after a concrete successful first call, the second
call returns the same list and state, and the trace holds one listing,
one fetch and one archive open. -/
theorem download_map_files_memoized_witness :
    download_map_files wMap sMapDone =
      (Except.ok [⟨[⟨20240101, "aol", "twx"⟩]⟩], sMapDone) ∧
    countListing sMapDone.events = countListing sClean.events + 1 ∧
    countFetch sMapDone.events ≤ countFetch sClean.events + 1 ∧
    countArchive sMapDone.events = countArchive sClean.events + 1 :=
  download_map_files_memoized wMap sClean [⟨[⟨20240101, "aol", "twx"⟩]⟩] sMapDone
    rfl (by decide)

/-- A world whose map-file listing is not sorted: the positionally last
zip entry is lexicographically the smaller one. -/
def wTwoZips : World where
  dataDir := "data"
  fetchFile := fun _ => Except.ok "ZIPBYTES"
  listFiles := fun _ => Except.ok ["b.zip", "a.zip"]
  userConfirm := true
  openZip := fun _ => Except.ok []
  parseMapFile := fun _ => Except.ok ⟨[]⟩

/-- Claim C6, counterexample: on the listing ["b.zip", "a.zip"] the
uncached call fetches "a.zip", the positionally last zip entry, even
though the lexicographically-last zip entry is "b.zip". -/
theorem map_zip_selection_not_lexicographic :
    Event.fetch "a.zip" ∈ ((download_map_files wTwoZips sClean).2).events ∧
    Event.fetch "b.zip" ∉ ((download_map_files wTwoZips sClean).2).events ∧
    lexLastZip ["b.zip", "a.zip"] = some "b.zip" := by
  decide

/-- Claim C6 (amended): when the map-file cache is empty,
download_map_files uses as the bundle the zip-suffixed listing entry
that appears last in listing order: if that entry is z and z is not yet
mirrored locally, the only fetch the call issues is for z. -/
theorem map_zip_selection_listing_order (w : World) (s : Sys)
    (entries : List String) (z : String)
    (hcache : s.st.map_files_cache = none)
    (hlist : w.listFiles mapFilesPath = Except.ok entries)
    (hlast : (entries.filter (fun m => strEndsWith m ".zip")).getLast? = some z)
    (hnolocal : fsExists s.fs (w.dataDir ++ "/" ++ z) = false) :
    Event.fetch z ∈ ((download_map_files w s).2).events ∧
    ∀ p, Event.fetch p ∈ ((download_map_files w s).2).events →
      Event.fetch p ∈ s.events ∨ p = z := by
  simp only [download_map_files, hcache, hlist, hlast, hnolocal, Bool.false_eq_true,
    if_false, download_file, fetchAndWrite]
  rcases hf : w.fetchFile z with e | content <;> simp only [hf]
  · by_cases hnf : e.isFileNotFound = true <;>
      simp only [hnf, Bool.false_eq_true, if_false, if_true]
    · rcases ho : openZipAt w s.fs (w.dataDir ++ "/" ++ z) with m | c <;>
        simp only [ho]
      · constructor
        · simp
        · intro p hp
          simp [List.mem_append] at hp
          tauto
      · rcases hp2 : parseAll w c with m | mfs <;> simp only [hp2] <;>
          constructor <;>
          first
            | simp
            | (intro p hp
               simp [List.mem_append] at hp
               tauto)
    · constructor
      · simp
      · intro p hp
        simp [List.mem_append] at hp
        tauto
  · rcases ho : openZipAt w (fsWrite s.fs (w.dataDir ++ "/" ++ z) content)
        (w.dataDir ++ "/" ++ z) with m | c <;> simp only [ho]
    · constructor
      · simp
      · intro p hp
        simp [List.mem_append] at hp
        tauto
    · rcases hp2 : parseAll w c with m | mfs <;> simp only [hp2] <;>
        constructor <;>
        first
          | simp
          | (intro p hp
             simp [List.mem_append] at hp
             tauto)

/-- Witness for the amended C6: from the two-zip listing the bundle
fetched is exactly the positionally last zip entry "a.zip". -/
theorem map_zip_selection_listing_order_witness :
    Event.fetch "a.zip" ∈ ((download_map_files wTwoZips sClean).2).events ∧
    ∀ p, Event.fetch p ∈ ((download_map_files wTwoZips sClean).2).events →
      Event.fetch p ∈ sClean.events ∨ p = "a.zip" :=
  map_zip_selection_listing_order wTwoZips sClean ["b.zip", "a.zip"] "a.zip"
    rfl rfl (by decide) (by decide)

theorem strAppend_assoc (a b c : String) : a ++ b ++ c = a ++ (b ++ c) := by
  rcases a with ⟨la⟩
  rcases b with ⟨lb⟩
  rcases c with ⟨lc⟩
  show String.mk (la ++ lb ++ lc) = String.mk (la ++ (lb ++ lc))
  rw [List.append_assoc]

theorem filter_length_pos_any {α : Type} (p : α → Bool) (l : List α) :
    decide (0 < (l.filter p).length) = l.any p := by
  induction l with
  | nil => rfl
  | cons a t ih =>
      by_cases h : p a = true
      · simp [List.filter_cons, h]
      · simp only [Bool.not_eq_true] at h
        simp [List.filter_cons, h, ih]

/-- Claim C8: for a chains-type product, _get_data_files emits exactly
one path per tradable date, in calendar order, of the form
base/date/ticker.csv with base option/market/chains, using only the
calendar collaborator - neither the date-range resolver nor the
existence probe is invoked, and the emitted list has exactly one entry
per calendar date. -/
theorem chains_data_files (w : ResolverWorld) (p : EquityOptionProduct)
    (h : p.data_type = DataType.Chains) :
    get_data_files w p =
      some ((w.tradableDates p.start_date p.end_date).map
              (fun d => "option/" ++ strToLower p.market ++ "/chains/" ++ d ++ "/" ++
                strToLower p.ticker ++ ".csv"),
            [RCall.calendar]) ∧
    ∀ files calls, get_data_files w p = some (files, calls) →
      files.length = (w.tradableDates p.start_date p.end_date).length ∧
      calls = [RCall.calendar] := by
  have hbd : baseDirectory DataType.Chains p.market ++ "/" =
      "option/" ++ strToLower p.market ++ "/chains/" := by
    rw [baseDirectory, if_pos rfl]
    rw [strAppend_assoc (("option/" ++ strToLower p.market) ++ "/") "chains" "/"]
    rw [strAppend_assoc ("option/" ++ strToLower p.market) "/" ("chains" ++ "/")]
    rfl
  have hbase : ∀ d : String,
      baseDirectory DataType.Chains p.market ++ "/" ++ d ++ "/" ++
        strToLower p.ticker ++ ".csv" =
      "option/" ++ strToLower p.market ++ "/chains/" ++ d ++ "/" ++
        strToLower p.ticker ++ ".csv" := by
    intro d
    rw [hbd]
  have heq : get_data_files w p =
      some ((w.tradableDates p.start_date p.end_date).map
              (fun d => "option/" ++ strToLower p.market ++ "/chains/" ++ d ++ "/" ++
                strToLower p.ticker ++ ".csv"),
            [RCall.calendar]) := by
    rw [get_data_files, if_neg (by simp [h]), h]
    congr 1
    rw [Prod.mk.injEq]
    refine ⟨List.map_congr_left (fun d _ => hbase d), rfl⟩
  refine ⟨heq, ?_⟩
  intro files calls hfc
  rw [heq] at hfc
  rw [Option.some.injEq, Prod.mk.injEq] at hfc
  obtain ⟨hfiles, hcalls⟩ := hfc
  subst hfiles
  subst hcalls
  exact ⟨List.length_map _ _, rfl⟩

/-- A tradable-calendar collaborator with three dates. -/
def wCal : ResolverWorld where
  tradableDates := fun _ _ => ["20240101", "20240102", "20240103"]
  dataFilesInRange := fun _ _ => []
  listingFor := fun _ => []
  matchesPat := fun _ _ => false

/-- A chains-type product specification. -/
def pChains : EquityOptionProduct :=
  ⟨DataType.Chains, "USA", "SPY", none, some "2024-01-01", some "2024-01-03"⟩

/-- Witness for C8: a 3-date calendar yields exactly the 3 per-date
chain descriptors, with the calendar as the only collaborator call. -/
theorem chains_data_files_witness :
    get_data_files wCal pChains =
      some (["option/usa/chains/20240101/spy.csv",
             "option/usa/chains/20240102/spy.csv",
             "option/usa/chains/20240103/spy.csv"], [RCall.calendar]) ∧
    (["option/usa/chains/20240101/spy.csv",
      "option/usa/chains/20240102/spy.csv",
      "option/usa/chains/20240103/spy.csv"] : List String).length = 3 := by
  have h := chains_data_files wCal pChains rfl
  refine ⟨h.1.trans (by decide), ?_⟩
  have h2 := (h.2 ["option/usa/chains/20240101/spy.csv",
    "option/usa/chains/20240102/spy.csv",
    "option/usa/chains/20240103/spy.csv"] [RCall.calendar]
    (h.1.trans (by decide))).1
  exact h2.trans (by decide)

/-- Claim C9: the ticker probe of EquityOptionProduct.build.  For the
chains data kind it reports true with no listing call at all; for any
other data kind it lists the ticker-indexed path once and reports true
exactly when some entry matches the date pattern built from the data
type and option style. -/
theorem validate_ticker_probe (w : ResolverWorld) (data_type : DataType)
    (option_style : Option OptionStyle) (base t : String) :
    (data_type = DataType.Chains →
      validate_ticker w data_type option_style base t = some (true, [])) ∧
    (data_type ≠ DataType.Chains → ∀ st, option_style = some st →
      validate_ticker w data_type option_style base t =
        some ((w.listingFor (base ++ "/" ++ strToLower t ++ "/")).any
                (fun entry => w.matchesPat ("/\\d+_" ++ dataTypeNameLower data_type ++
                  "_" ++ optionStyleNameLower st ++ "\\.zip") entry),
              [RCall.listing (base ++ "/" ++ strToLower t ++ "/")])) := by
  constructor
  · intro h
    simp [validate_ticker, h]
  · intro h st hst
    simp [validate_ticker, h, hst, list_files_model, filter_length_pos_any]

/-- A probe world with one matching listed entry. -/
def wProbe : ResolverWorld where
  tradableDates := fun _ _ => []
  dataFilesInRange := fun _ _ => []
  listingFor := fun _ => ["/20240101_trade_american.zip"]
  matchesPat := fun pat entry =>
    (pat == "/\\d+_trade_american\\.zip") && (entry == "/20240101_trade_american.zip")

/-- Witness for C9: the chains probe is true with no calls; the trade
probe lists the ticker path once and finds its matching entry. -/
theorem validate_ticker_probe_witness :
    validate_ticker wProbe DataType.Chains none "option/usa/chains" "SPY" =
      some (true, []) ∧
    validate_ticker wProbe DataType.Trade (some OptionStyle.American)
      "option/usa/minute" "SPY" =
      some (true, [RCall.listing "option/usa/minute/spy/"]) := by
  have h1 := (validate_ticker_probe wProbe DataType.Chains none
    "option/usa/chains" "SPY").1 rfl
  have h2 := (validate_ticker_probe wProbe DataType.Trade (some OptionStyle.American)
    "option/usa/minute" "SPY").2 (by decide) OptionStyle.American rfl
  exact ⟨h1, h2.trans (by decide)⟩
